import Mathlib

/-!
Verification development for the connection engine and parameter
serialization of the asiofied_libpq repository.

The definitions below are shallow embeddings of the C++ sources:

- src/include/asiofiedpq/connection.hpp : result handlers, the
  result-handler FIFO, the reader half of async_run, the post-await
  continuations of async_query and async_exec_pipeline, the
  destructor drain, and the combination of the two raced halves.
- src/include/psql/params.hpp and
  src/include/psql/detail/serialization.hpp : the params block that
  flattens an argument pack into the OID / value-pointer / length /
  format arrays used for submission.
- src/include/psql/detail/extract_new_udts.hpp : the structural scan
  for unregistered user-defined types.

Machine-level notions are rendered as follows: raw bytes are Nat
values below 256, pointers into the parameter buffer are offsets
(Option Nat, none standing for a null pointer), and a C++ operation
whose execution would be undefined (a write through a past-the-end
iterator, the failed assertion in the reader) is a none outcome of an
Option-valued function.
-/

namespace AsiofiedPq

/-- Result statuses observable from libpq (result.hpp wraps
PQresultStatus); only the pipeline-sync marker is dispatched
specially, all other constructors are kept abstractly. -/
inductive ResultStatus where
  | commandOk
  | tuplesOk
  | pipelineSync
  | emptyQuery
  | fatalError
  | nonfatalError
  | pipelineAborted
deriving DecidableEq, Repr

/-- One protocol-level result message: its status plus an abstract
identity for the payload (rows, error fields, ...), enough to track
which message went where. -/
structure Result where
  status : ResultStatus
  payload : Nat
deriving DecidableEq, Repr

/-- connection.hpp lines 51-56: result_handler::status. -/
inductive HandlerStatus where
  | waiting
  | completed
  | cancelled
deriving DecidableEq, Repr

/-- Error codes surfaced by the connection operations (error.hpp and
asio::error codes used in connection.hpp); ok stands for a
default-constructed error_code; otherIo stands for any other socket
error. -/
inductive Ec where
  | ok
  | operationAborted
  | connectionFailed
  | pqconsumeinputFailed
  | pqsendqueryparamsFailed
  | pqpipelinesyncFailed
  | otherIo (n : Nat)
deriving DecidableEq, Repr

/-- connection.hpp lines 277-297: single_query_result_handler, with
its stored result_ member (none = still default-constructed). -/
structure SingleQueryResultHandler where
  status : HandlerStatus
  stored : Option Result
deriving DecidableEq, Repr

/-- A freshly constructed single_query_result_handler: the base class
initializes status_ to waiting, result_ is a null result. -/
def SingleQueryResultHandler.fresh : SingleQueryResultHandler :=
  { status := .waiting, stored := none }

/-- connection.hpp lines 287-291: handle stores the result and calls
complete(), which sets the status to completed. -/
def SingleQueryResultHandler.handle
    (h : SingleQueryResultHandler) (r : Result) : SingleQueryResultHandler :=
  { h with stored := some r, status := .completed }

/-- connection.hpp lines 302-310: the continuation of async_query
after awaiting the handler. It returns the handler state (the code
performs no mutation on the handler in any branch), the error code,
and the released result. On waiting status the operation fails with
operation_aborted, on cancelled with connection_failed, otherwise it
releases the stored result with no error. -/
def queryAwaitCont (h : SingleQueryResultHandler) :
    SingleQueryResultHandler × Ec × Option Result :=
  if h.status = .waiting then (h, .operationAborted, none)
  else if h.status = .cancelled then (h, .connectionFailed, none)
  else (h, .ok, h.stored)

/-- connection.hpp lines 201-236: pipeline_result_handler. The
iterator pair over the caller-owned array of pipelined_query slots is
rendered by the list of results written so far (written, the slots
behind first_) together with the number of slots still ahead of the
iterator (remaining = distance of first_ and last_). -/
structure PipelineResultHandler where
  status : HandlerStatus
  written : List Result
  remaining : Nat
  nDummy : Nat
deriving DecidableEq, Repr

/-- The handler constructed by async_exec_pipeline for a range of n
pushed queries: waiting, nothing written, n slots ahead, not dummy. -/
def PipelineResultHandler.fresh (n : Nat) : PipelineResultHandler :=
  { status := .waiting, written := [], remaining := n, nDummy := 0 }

/-- connection.hpp lines 215-228: handle. In dummy mode the counter
is decremented and complete() fires when it reaches zero. Otherwise
the code writes through first_ unconditionally; when first_ equals
last_ (remaining = 0) that dereference is past the end of the range,
which the embedding renders as none. In the defined case the result
is written into the next slot, the iterator advances, and complete()
fires when it reaches last_. -/
def PipelineResultHandler.handle
    (h : PipelineResultHandler) (r : Result) : Option PipelineResultHandler :=
  if h.nDummy ≠ 0 then
    some { h with
           nDummy := h.nDummy - 1,
           status := if h.nDummy - 1 = 0 then .completed else h.status }
  else if h.remaining = 0 then
    none
  else
    some { h with
           written := h.written ++ [r],
           remaining := h.remaining - 1,
           status := if h.remaining - 1 = 0 then .completed else h.status }

/-- connection.hpp lines 230-235: dumify sets n_dummy_ to the
distance of first_ and last_, leaving the (now invalid) iterators
untouched. -/
def PipelineResultHandler.dumify (h : PipelineResultHandler) : PipelineResultHandler :=
  { h with nDummy := h.remaining }

/-- connection.hpp lines 241-252: the continuation of
async_exec_pipeline after awaiting the handler: on waiting status the
handler is dumified and the operation fails with operation_aborted,
on cancelled status it fails with connection_failed, otherwise it
succeeds. -/
def pipelineAwaitCont (h : PipelineResultHandler) : PipelineResultHandler × Ec :=
  if h.status = .waiting then (h.dumify, .operationAborted)
  else if h.status = .cancelled then (h, .connectionFailed)
  else (h, .ok)

/-- Feeding a sequence of results to a pipeline handler, one handle
call per result, propagating the undefined-write outcome. -/
def feedPipeline (h : PipelineResultHandler) :
    List Result → Option PipelineResultHandler
  | [] => some h
  | r :: rs =>
    match h.handle r with
    | none => none
    | some h1 => feedPipeline h1 rs

/-- The two concrete result_handler variants of connection.hpp,
as they sit in the result_handlers_ queue. -/
inductive Handler where
  | single (h : SingleQueryResultHandler)
  | pipe (h : PipelineResultHandler)
deriving DecidableEq, Repr

/-- result_handler::get_status. -/
def Handler.getStatus : Handler → HandlerStatus
  | .single h => h.status
  | .pipe h => h.status

/-- Virtual dispatch of result_handler::handle over the two concrete
variants; the pipeline variant can hit the undefined write. -/
def Handler.handle : Handler → Result → Option Handler
  | .single h, r => some (.single (h.handle r))
  | .pipe h, r => (h.handle r).map Handler.pipe

/-- connection.hpp lines 80-84: cancel sets the status to cancelled
(the cv wake-up carries no state and is not modelled). -/
def Handler.cancel : Handler → Handler
  | .single h => .single { h with status := .cancelled }
  | .pipe h => .pipe { h with status := .cancelled }

/-- Outcome of dispatching one result in the reader half: the queue
afterwards, which handler (by enqueue id) received the result through
handle, and the handlers popped from the queue (with their state at
pop time). -/
structure DispatchOut where
  queue : List (Nat × Handler)
  handled : Option (Nat × Result)
  popped : List (Nat × Handler)
deriving DecidableEq, Repr

/-- connection.hpp lines 374-384, the per-result step of the reader
half of async_run: a pipeline-sync result is consumed without
touching the queue; any other result must find a nonempty queue (the
failed assertion and an undefined handle write are both none), is
passed to the front handler, and that handler is popped exactly when
its status is then completed. -/
def dispatchResult (q : List (Nat × Handler)) (r : Result) : Option DispatchOut :=
  if r.status = .pipelineSync then some { queue := q, handled := none, popped := [] }
  else
    match q with
    | [] => none
    | (i, h) :: t =>
      match h.handle r with
      | none => none
      | some h1 =>
        if h1.getStatus = .completed then
          some { queue := t, handled := some (i, r), popped := [(i, h1)] }
        else
          some { queue := (i, h1) :: t, handled := some (i, r), popped := [] }

/-- State of the result-handler FIFO during a run: the queue with
enqueue ids, the next fresh id, and the handlers popped so far (in
pop order, with their state at pop time). -/
structure LoopState where
  queue : List (Nat × Handler)
  nextId : Nat
  popped : List (Nat × Handler)
deriving DecidableEq, Repr

/-- The empty initial state: no exec in flight yet. -/
def initLoopState : LoopState :=
  { queue := [], nextId := 0, popped := [] }

/-- Events acting on the FIFO while async_run is looping: an exec
pushes a fresh handler at the back (result_handlers_.push), or the
reader pulls one non-null result out of libpq and dispatches it. -/
inductive LoopEvent where
  | enqueue (h : Handler)
  | deliver (r : Result)
deriving DecidableEq, Repr

/-- One event step on the loop state. -/
def loopStep (st : LoopState) : LoopEvent → Option LoopState
  | .enqueue h =>
    some { st with queue := st.queue ++ [(st.nextId, h)], nextId := st.nextId + 1 }
  | .deliver r =>
    match dispatchResult st.queue r with
    | none => none
    | some o => some { st with queue := o.queue, popped := st.popped ++ o.popped }

/-- A whole run: folding the events over the state. -/
def runLoop (st : LoopState) : List LoopEvent → Option LoopState
  | [] => some st
  | e :: es =>
    match loopStep st e with
    | none => none
    | some st1 => runLoop st1 es

/-- The ways the reader half exits its loop (connection.hpp lines
386-390): a failed socket read-wait returns that error, a failed
PQconsumeInput returns pqconsumeinput_failed. -/
inductive ReaderExit where
  | waitReadFailed (ec : Ec)
  | consumeInputFailed
deriving DecidableEq, Repr

/-- The error code the reader half completes with. -/
def readerExitCode : ReaderExit → Ec
  | .waitReadFailed ec => ec
  | .consumeInputFailed => .pqconsumeinputFailed

/-- The reader half of async_run over a whole run: it processes its
events and then exits with an error; the co_return at connection.hpp
lines 387 and 390 leaves the handler queue exactly as it was. -/
def readerRun (st : LoopState) (events : List LoopEvent) (exit : ReaderExit) :
    Option (Ec × LoopState) :=
  match runLoop st events with
  | none => none
  | some st1 => some (readerExitCode exit, st1)

/-- connection.hpp lines 121-127, the destructor: every handler still
queued is cancelled and popped; the value is the list of those
handlers after their cancellation. -/
def destructorDrain (q : List (Nat × Handler)) : List (Nat × Handler) :=
  q.map (fun p => (p.1, p.2.cancel))

/-- Which of the two raced halves of async_run terminates first. -/
inductive RaceWinner where
  | writer
  | reader
deriving DecidableEq, Repr

/-- The pair of completion codes (writer, reader) delivered by the
parallel group under wait_for_one: the winner completes with its own
code, the loser is cancelled and completes with operation_aborted as
declared by on_cancellation_complete_with (connection.hpp lines 332
and 356). -/
def raceOutcome : RaceWinner → Ec → Ec × Ec
  | .writer, ec => (ec, .operationAborted)
  | .reader, ec => (.operationAborted, ec)

/-- connection.hpp line 401: co_return ec1 if it is nonzero,
otherwise ec2. -/
def runCombine (ecs : Ec × Ec) : Ec :=
  if ecs.1 ≠ .ok then ecs.1 else ecs.2

/-- The value async_run completes with when one half terminates first
with the given code. -/
def asyncRunResult (w : RaceWinner) (ec : Ec) : Ec :=
  runCombine (raceOutcome w ec)

end AsiofiedPq

namespace Psql

/-- The parameter value variants whose serializers appear in
src/include/psql/detail/serialization.hpp and that the params block
flattens: fixed-width big-endian integers, a timestamp, and the three
text flavors (string, string_view, const char pointer) which all
append their raw bytes. A text value is carried as its byte sequence;
bytes are Nat values below 256. -/
inductive PValue where
  | pint16 (v : Int)
  | pint32 (v : Int)
  | pint64 (v : Int)
  | ptimestamp (micros : Int)
  | ptext (bytes : List Nat)
deriving DecidableEq, Repr

/-- Big-endian fixed-width encoding of an integer, as performed by
the boost endian store in serialization.hpp lines 52-62: the value
reduced modulo 2 ^ (8 * w), most significant byte first. -/
def intBE (w : Nat) (v : Int) : List Nat :=
  (List.range w).map (fun i => (v.emod (2 ^ (8 * w))).toNat / 2 ^ (8 * (w - 1 - i)) % 256)

/-- serialization.hpp: the bytes each variant appends to the buffer.
Integral types store big-endian at their width; the timestamp (lines
64-74) serializes the microseconds shifted by the 2000-01-01 epoch
offset as an int64; the text flavors (lines 76-101) append the raw
bytes with no terminator and no length prefix. -/
def serializeV : PValue → List Nat
  | .pint16 v => intBE 2 v
  | .pint32 v => intBE 4 v
  | .pint64 v => intBE 8 v
  | .ptimestamp micros => intBE 8 (micros - 946684800000000)
  | .ptext bytes => bytes

/-- Modelled from the spec: psql/detail/size_of.hpp is not under
src/; section 4.B states that size_of is recursive and matches
serialize byte for byte, so the size of a value is the length of its
serialization. -/
def sizeOfV (v : PValue) : Nat :=
  (serializeV v).length

/-- Modelled from the spec: psql/detail/oid_of.hpp is not under src/;
section 4.A states that built-in types have hard-coded OIDs (the
standard PostgreSQL values are used here; no claim depends on the
concrete numbers). -/
def oidOfV : PValue → Nat
  | .pint16 _ => 21
  | .pint32 _ => 23
  | .pint64 _ => 20
  | .ptimestamp _ => 1184
  | .ptext _ => 25

/-- psql/params.hpp lines 12-18: the params block. The backing byte
buffer plus the four parallel arrays handed to PQsendQueryParams;
a value entry is the offset of the parameter bytes inside the buffer,
none standing for a null pointer. -/
structure Params where
  buffer : List Nat
  types : List Nat
  values : List (Option Nat)
  lengths : List Int
  formats : List Int
deriving DecidableEq, Repr

/-- A default-constructed params object. -/
def Params.empty : Params :=
  { buffer := [], types := [], values := [], lengths := [], formats := [] }

/-- params.hpp lines 66-72: add pushes the OID and the size_of the
value and serializes it at the end of the buffer. -/
def Params.add (p : Params) (v : PValue) : Params :=
  { p with
    types := p.types ++ [oidOfV v],
    lengths := p.lengths ++ [(sizeOfV v : Int)],
    buffer := p.buffer ++ serializeV v }

/-- params.hpp lines 74-82, the loop body of convert_offsets: walking
the lengths with a running offset, each value entry becomes the
current offset when the length is nonzero and a null pointer when it
is zero, and every format entry is pushed as 1. -/
def convertOffsetsAux : Nat → List Int → List (Option Nat) × List Int
  | _, [] => ([], [])
  | off, len :: rest =>
    let tail := convertOffsetsAux (off + len.toNat) rest
    ((if len = 0 then none else some off) :: tail.1, 1 :: tail.2)

/-- params.hpp lines 74-82: convert_offsets fills the values and
formats arrays from the lengths. -/
def Params.convertOffsets (p : Params) : Params :=
  let vf := convertOffsetsAux 0 p.lengths
  { p with values := vf.1, formats := vf.2 }

/-- params.hpp lines 23-30: the constructor folds add over the
argument pack and then converts offsets to pointers. -/
def makeParams (vs : List PValue) : Params :=
  (vs.foldl Params.add Params.empty).convertOffsets

/-- A parameter is transmitted as a present value exactly when its
entry in the values array is a non-null pointer; libpq interprets a
null entry in paramValues as the SQL NULL value. -/
def presentAt (p : Params) (i : Nat) : Prop :=
  ∃ off, p.values.get? i = some (some off)

mutual

/-- The universe of parameter types walked by
psql/detail/extract_new_udts.hpp: built-in scalars, user-defined
composites (pfr-reflected structs, carrying the registered name of
user_defined of T and the list of field types), anonymous tuples
(composite but not user-defined), and arrays. The typeid key used by
the oid map is rendered by the registered name, which identifies a
user-defined type one to one. -/
inductive PgType where
  | builtin : PgType
  | udt : String → PgTypeList → PgType
  | tup : PgTypeList → PgType
  | arr : PgType → PgType

/-- A list of field types (kept as a separate inductive so that the
structural recursion of the extraction mirrors the fold over the
field pack). -/
inductive PgTypeList where
  | nil : PgTypeList
  | cons : PgType → PgTypeList → PgTypeList

end

mutual

/-- extract_new_udts.hpp lines 13-62: the structural walk. Built-ins
contribute nothing (the primary template, lines 13-19); an array
recurses into its element type (lines 27-35); a user-defined
composite first pushes its name when the map does not contain its
typeid and then recurses into every field (lines 46-55); a tuple just
recurses into its members (lines 57-61). The map is rendered by the
list of registered names. -/
def extractNewUdts (omp : List String) : PgType → List String
  | .builtin => []
  | .udt n fs => (if n ∈ omp then [] else [n]) ++ extractNewUdtsList omp fs
  | .tup fs => extractNewUdtsList omp fs
  | .arr e => extractNewUdts omp e

/-- The fold of extract_new_udts over a pack of field types, in field
order. -/
def extractNewUdtsList (omp : List String) : PgTypeList → List String
  | .nil => []
  | .cons f fs => extractNewUdts omp f ++ extractNewUdtsList omp fs

end

mutual

/-- The names of all user-defined types structurally reachable in a
type, in the same traversal order as extract_new_udts but ignoring
the map: the reference against which the extraction is compared. -/
def reachableUdts : PgType → List String
  | .builtin => []
  | .udt n fs => n :: reachableUdtsList fs
  | .tup fs => reachableUdtsList fs
  | .arr e => reachableUdts e

/-- reachableUdts over a pack of field types. -/
def reachableUdtsList : PgTypeList → List String
  | .nil => []
  | .cons f fs => reachableUdts f ++ reachableUdtsList fs

end

end Psql

namespace AsiofiedPq

/-- Modelled from the spec (glossary and section 4.D): a handler in
dummy mode counts and discards further results rather than
dispatching them to storage; for the single-query handler that would
mean a handle call leaves the stored result untouched. -/
def SingleQueryResultHandler.discardsResults (h : SingleQueryResultHandler) : Prop :=
  ∀ r, (h.handle r).stored = h.stored

/-- Concrete result used in witnesses. -/
def resA : Result :=
  { status := .tuplesOk, payload := 1 }

/-- Concrete result used in witnesses. -/
def resB : Result :=
  { status := .commandOk, payload := 2 }

/-- Running a non-dummy waiting pipeline handler over a sequence of
at most remaining results: every result is appended to the written
slots in arrival order, the iterator advances one slot per result,
and the handler completes exactly when the sequence exhausts the
range. -/
theorem feedPipeline_run (rs : List Result) : ∀ h : PipelineResultHandler,
    h.status = .waiting → h.nDummy = 0 → 1 ≤ h.remaining → rs.length ≤ h.remaining →
    feedPipeline h rs =
      some { status := if rs.length = h.remaining then .completed else .waiting,
             written := h.written ++ rs,
             remaining := h.remaining - rs.length,
             nDummy := 0 } := by
  induction rs with
  | nil =>
    intro h hw hd h1 _
    have hne : ¬ (0 = h.remaining) := by omega
    cases h
    simp_all [feedPipeline]
  | cons r rs ih =>
    intro h hw hd h1 hlen
    obtain ⟨m, hm⟩ : ∃ m, h.remaining = m + 1 := ⟨h.remaining - 1, by omega⟩
    have hstep : h.handle r =
        some { status := if m = 0 then .completed else .waiting,
               written := h.written ++ [r], remaining := m, nDummy := 0 } := by
      cases h
      simp_all [PipelineResultHandler.handle]
    rcases Nat.eq_zero_or_pos m with hm0 | hmpos
    · subst hm0
      have hrs : rs = [] := by
        cases rs with
        | nil => rfl
        | cons a l => simp [hm] at hlen
      subst hrs
      simp [feedPipeline, hstep, hm]
    · have hrec := ih { status := if m = 0 then .completed else .waiting,
                        written := h.written ++ [r], remaining := m, nDummy := 0 }
        (by simp; omega) rfl (by simpa using hmpos) (by simp [hm] at hlen; simpa using hlen)
      simp only [feedPipeline, hstep]
      rw [hrec]
      dsimp only
      by_cases hrm : rs.length = m
      · have hrm2 : (r :: rs).length = h.remaining := by
          simp [hm, hrm]
        simp [hrm, hrm2, hm, List.append_assoc]
      · have hrm2 : ¬ (r :: rs).length = h.remaining := by
          simpa [hm] using hrm
        simp [hrm, hrm2, hm, List.append_assoc, Nat.succ_sub_succ]

/-- The enqueue ids present in a loop state, popped handlers first
(in pop order) followed by the queue from front to back. -/
def stateIds (st : LoopState) : List Nat :=
  st.popped.map Prod.fst ++ st.queue.map Prod.fst

/-- The id bookkeeping invariant of a run: all ids are pairwise
increasing across popped-then-queued handlers and below the next
fresh id. -/
def IdsInv (st : LoopState) : Prop :=
  (stateIds st).Pairwise (· < ·) ∧ ∀ i ∈ stateIds st, i < st.nextId

/-- Dispatching one result permutes no ids: the popped ids followed
by the remaining queue ids are exactly the previous queue ids. -/
theorem dispatchResult_ids {q : List (Nat × Handler)} {r : Result} {o : DispatchOut}
    (hd : dispatchResult q r = some o) :
    o.popped.map Prod.fst ++ o.queue.map Prod.fst = q.map Prod.fst := by
  by_cases hs : r.status = .pipelineSync
  · simp [dispatchResult, hs] at hd
    subst hd
    simp
  · rcases q with _ | ⟨⟨i, h⟩, t⟩
    · simp [dispatchResult, hs] at hd
    · rcases hh : h.handle r with _ | h1
      · simp [dispatchResult, hs, hh] at hd
      · by_cases hc : h1.getStatus = .completed
        · simp [dispatchResult, hs, hh, hc] at hd
          subst hd
          simp
        · simp [dispatchResult, hs, hh, hc] at hd
          subst hd
          simp

/-- A handle call either completes a handler or leaves its status as
it was; in particular it never produces a cancelled handler from a
non-cancelled one. -/
theorem handle_status_cases {h : Handler} {r : Result} {h1 : Handler}
    (hh : h.handle r = some h1) :
    h1.getStatus = .completed ∨ h1.getStatus = h.getStatus := by
  cases h with
  | single hs =>
    simp [Handler.handle] at hh
    subst hh
    left
    rfl
  | pipe hp =>
    simp [Handler.handle] at hh
    obtain ⟨h2, hh2, rfl⟩ := hh
    rw [PipelineResultHandler.handle] at hh2
    split at hh2
    · obtain rfl := Option.some.inj hh2
      by_cases hz : hp.nDummy - 1 = 0
      · left
        simp [Handler.getStatus, hz]
      · right
        simp [Handler.getStatus, hz]
    · split at hh2
      · cases hh2
      · obtain rfl := Option.some.inj hh2
        by_cases hz : hp.remaining - 1 = 0
        · left
          simp [Handler.getStatus, hz]
        · right
          simp [Handler.getStatus, hz]

/-- Dispatching one result pops only handlers whose status is then
completed, and introduces no cancelled handler into the queue. -/
theorem dispatchResult_statuses {q : List (Nat × Handler)} {r : Result} {o : DispatchOut}
    (hd : dispatchResult q r = some o) :
    (∀ p ∈ o.popped, p.2.getStatus = .completed)
  ∧ ((∀ p ∈ q, p.2.getStatus ≠ .cancelled) →
      ∀ p ∈ o.queue, p.2.getStatus ≠ .cancelled) := by
  by_cases hs : r.status = .pipelineSync
  · simp [dispatchResult, hs] at hd
    subst hd
    refine ⟨by simp, fun hq p hp => hq p hp⟩
  · rcases q with _ | ⟨⟨i, h⟩, t⟩
    · simp [dispatchResult, hs] at hd
    · rcases hh : h.handle r with _ | h1
      · simp [dispatchResult, hs, hh] at hd
      · by_cases hc : h1.getStatus = .completed
        · simp [dispatchResult, hs, hh, hc] at hd
          subst hd
          refine ⟨by simpa using hc, fun hq p hp => hq p (by simp [hp])⟩
        · simp [dispatchResult, hs, hh, hc] at hd
          subst hd
          refine ⟨by simp, fun hq p hp => ?_⟩
          rcases List.mem_cons.mp hp with rfl | hmem
          · rcases handle_status_cases hh with h2 | h2
            · exact absurd h2 hc
            · rw [h2]
              exact hq (i, h) (by simp)
          · exact hq p (by simp [hmem])

/-- One loop step preserves the id bookkeeping invariant. -/
theorem loopStep_idsInv {st : LoopState} {e : LoopEvent} {st1 : LoopState}
    (h : loopStep st e = some st1) (hi : IdsInv st) : IdsInv st1 := by
  obtain ⟨hp, hb⟩ := hi
  cases e with
  | enqueue hh =>
    simp [loopStep] at h
    subst h
    have hids : stateIds
        { st with
          queue := st.queue ++ [(st.nextId, hh)],
          nextId := st.nextId + 1 } = stateIds st ++ [st.nextId] := by
      simp [stateIds]
    constructor
    · rw [hids, List.pairwise_append]
      refine ⟨hp, by simp, fun a ha b hb2 => ?_⟩
      rcases List.mem_singleton.mp hb2 with rfl
      exact hb a ha
    · intro i hi2
      rw [hids] at hi2
      rcases List.mem_append.mp hi2 with hi3 | hi3
      · exact Nat.lt_succ_of_lt (hb i hi3)
      · rcases List.mem_singleton.mp hi3 with rfl
        simp
  | deliver r =>
    rcases hdq : dispatchResult st.queue r with _ | o
    · simp [loopStep, hdq] at h
    · simp [loopStep, hdq] at h
      subst h
      have hids : stateIds { st with queue := o.queue, popped := st.popped ++ o.popped } =
          stateIds st := by
        simp [stateIds, List.append_assoc, dispatchResult_ids hdq]
      constructor
      · rw [hids]
        exact hp
      · intro i hi2
        rw [hids] at hi2
        exact hb i hi2

/-- A whole run preserves the id bookkeeping invariant. -/
theorem runLoop_idsInv {evs : List LoopEvent} : ∀ {st st1 : LoopState},
    runLoop st evs = some st1 → IdsInv st → IdsInv st1 := by
  induction evs with
  | nil =>
    intro st st1 h hi
    simp [runLoop] at h
    subst h
    exact hi
  | cons e es ih =>
    intro st st1 h hi
    rcases hstep : loopStep st e with _ | st2
    · simp [runLoop, hstep] at h
    · simp only [runLoop, hstep] at h
      exact ih h (loopStep_idsInv hstep hi)

/-- The status bookkeeping of a run: popped handlers were completed
at pop time, queued handlers are never cancelled by the loop. -/
def StatusInv (st : LoopState) : Prop :=
  (∀ p ∈ st.popped, p.2.getStatus = .completed)
  ∧ (∀ p ∈ st.queue, p.2.getStatus ≠ .cancelled)

/-- One loop step preserves the status bookkeeping provided an
enqueue event only pushes a non-cancelled handler (execs always push
fresh waiting handlers). -/
theorem loopStep_statusInv {st : LoopState} {e : LoopEvent} {st1 : LoopState}
    (h : loopStep st e = some st1)
    (he : ∀ hh, e = .enqueue hh → hh.getStatus ≠ .cancelled)
    (hi : StatusInv st) : StatusInv st1 := by
  obtain ⟨hpop, hq⟩ := hi
  cases e with
  | enqueue hh =>
    simp [loopStep] at h
    subst h
    refine ⟨hpop, fun p hp => ?_⟩
    rcases List.mem_append.mp hp with hmem | hmem
    · exact hq p hmem
    · rcases List.mem_singleton.mp hmem with rfl
      exact he hh rfl
  | deliver r =>
    rcases hdq : dispatchResult st.queue r with _ | o
    · simp [loopStep, hdq] at h
    · simp only [loopStep, hdq] at h
      obtain rfl := Option.some.inj h
      obtain ⟨hpc, hqc⟩ := dispatchResult_statuses hdq
      refine ⟨fun p hp => ?_, hqc hq⟩
      rcases List.mem_append.mp hp with hmem | hmem
      · exact hpop p hmem
      · exact hpc p hmem

/-- A whole run preserves the status bookkeeping. -/
theorem runLoop_statusInv {evs : List LoopEvent} : ∀ {st st1 : LoopState},
    runLoop st evs = some st1 →
    (∀ hh, LoopEvent.enqueue hh ∈ evs → hh.getStatus ≠ .cancelled) →
    StatusInv st → StatusInv st1 := by
  induction evs with
  | nil =>
    intro st st1 h _ hi
    simp [runLoop] at h
    subst h
    exact hi
  | cons e es ih =>
    intro st st1 h he hi
    rcases hstep : loopStep st e with _ | st2
    · simp [runLoop, hstep] at h
    · simp only [runLoop, hstep] at h
      refine ih h (fun hh hmem => he hh (by simp [hmem])) ?_
      exact loopStep_statusInv hstep (fun hh hee => he hh (by simp [hee])) hi

/-- C1: a non-sync result is forwarded through handle to the handler
at the front of the queue, and that handler is popped immediately
afterwards exactly when its status is then completed, the tail of the
queue being untouched either way; consequently, over any whole run
from the empty queue, the enqueue ids of the popped handlers are
strictly increasing, so handlers leave the queue exactly in the order
they were enqueued. -/
theorem reader_forwards_front_pops_in_fifo_order :
    (∀ (i : Nat) (h : Handler) (t : List (Nat × Handler)) (r : Result) (h1 : Handler),
      r.status ≠ .pipelineSync → h.handle r = some h1 →
      dispatchResult ((i, h) :: t) r =
        some { queue := if h1.getStatus = .completed then t else (i, h1) :: t,
               handled := some (i, r),
               popped := if h1.getStatus = .completed then [(i, h1)] else [] })
  ∧ (∀ (evs : List LoopEvent) (st1 : LoopState),
      runLoop initLoopState evs = some st1 →
      (st1.popped.map Prod.fst).Pairwise (· < ·)) := by
  constructor
  · intro i h t r h1 hr hh
    by_cases hc : h1.getStatus = .completed
    · simp [dispatchResult, hr, hh, hc]
    · simp [dispatchResult, hr, hh, hc]
  · intro evs st1 hrun
    have hinv : IdsInv st1 := by
      refine runLoop_idsInv hrun ?_
      constructor
      · simp [stateIds, initLoopState]
      · simp [stateIds, initLoopState]
    exact hinv.1.sublist (by simp [stateIds])

/-- Witness for C1 at concrete inputs: a rows result dispatched to a
fresh single-query handler in front of one more queued handler, which
completes and pops it while the tail stays; and a concrete run whose
two pops come out in enqueue order. -/
theorem reader_forwards_front_pops_in_fifo_order_witness :
    resA.status ≠ .pipelineSync
  ∧ Handler.handle (.single SingleQueryResultHandler.fresh) resA =
      some (.single { status := .completed, stored := some resA })
  ∧ dispatchResult
      [(0, .single SingleQueryResultHandler.fresh), (1, .single SingleQueryResultHandler.fresh)]
      resA =
      some { queue := if (Handler.single { status := .completed, stored := some resA }).getStatus
                         = .completed
                      then [(1, .single SingleQueryResultHandler.fresh)]
                      else [(0, .single { status := .completed, stored := some resA }),
                            (1, .single SingleQueryResultHandler.fresh)],
             handled := some (0, resA),
             popped := if (Handler.single { status := .completed, stored := some resA }).getStatus
                          = .completed
                       then [(0, .single { status := .completed, stored := some resA })]
                       else [] }
  ∧ runLoop initLoopState
      [.enqueue (.single SingleQueryResultHandler.fresh),
       .enqueue (.single SingleQueryResultHandler.fresh),
       .deliver resA, .deliver resB] =
      some { queue := [], nextId := 2,
             popped := [(0, .single { status := .completed, stored := some resA }),
                        (1, .single { status := .completed, stored := some resB })] }
  ∧ (([(0, Handler.single { status := .completed, stored := some resA }),
       (1, Handler.single { status := .completed, stored := some resB })].map
        Prod.fst).Pairwise (· < ·)) :=
  ⟨by decide, by decide,
    reader_forwards_front_pops_in_fifo_order.1 0 (.single SingleQueryResultHandler.fresh)
      [(1, .single SingleQueryResultHandler.fresh)] resA
      (.single { status := .completed, stored := some resA }) (by decide) (by decide),
    by decide,
    reader_forwards_front_pops_in_fifo_order.2
      [.enqueue (.single SingleQueryResultHandler.fresh),
       .enqueue (.single SingleQueryResultHandler.fresh),
       .deliver resA, .deliver resB]
      { queue := [], nextId := 2,
        popped := [(0, .single { status := .completed, stored := some resA }),
                   (1, .single { status := .completed, stored := some resB })] }
      (by decide)⟩

/-- C4 counterexample: the reader loop exits on a failed
PQconsumeInput while a waiting single-query handler is enqueued; the
run terminates with pqconsumeinput_failed and that handler is still
waiting, neither completed nor cancelled. -/
theorem run_error_leaves_handler_waiting :
    readerRun { queue := [(0, .single SingleQueryResultHandler.fresh)], nextId := 1, popped := [] }
      [] .consumeInputFailed =
      some (.pqconsumeinputFailed,
        { queue := [(0, .single SingleQueryResultHandler.fresh)], nextId := 1, popped := [] })
  ∧ (Handler.single SingleQueryResultHandler.fresh).getStatus ≠ .completed
  ∧ (Handler.single SingleQueryResultHandler.fresh).getStatus ≠ .cancelled := by
  refine ⟨by decide, by decide, by decide⟩

/-- C4 amended: the termination of the reader loop leaves the queue
exactly as it was at the exit point and cancels nothing: every
handler popped during the run had status completed, no handler in the
queue is cancelled by the loop; it is the connection destructor that
cancels every handler still queued, after which every handler ever
enqueued is completed (the popped ones) or cancelled (the drained
ones). -/
theorem run_termination_and_destructor (st : LoopState) (events : List LoopEvent)
    (exit : ReaderExit) (ec : Ec) (st1 : LoopState)
    (hpop : ∀ p ∈ st.popped, p.2.getStatus = .completed)
    (hq : ∀ p ∈ st.queue, p.2.getStatus ≠ .cancelled)
    (henq : ∀ hh, LoopEvent.enqueue hh ∈ events → hh.getStatus ≠ .cancelled)
    (hrun : readerRun st events exit = some (ec, st1)) :
    ec = readerExitCode exit
  ∧ (∀ p ∈ st1.popped, p.2.getStatus = .completed)
  ∧ (∀ p ∈ st1.queue, p.2.getStatus ≠ .cancelled)
  ∧ (∀ p ∈ destructorDrain st1.queue, p.2.getStatus = .cancelled) := by
  rcases hloop : runLoop st events with _ | st2
  · simp [readerRun, hloop] at hrun
  · simp only [readerRun, hloop] at hrun
    rcases hrun with ⟨rfl, rfl⟩
    obtain ⟨h1, h2⟩ := runLoop_statusInv hloop henq ⟨hpop, hq⟩
    refine ⟨rfl, h1, h2, fun p hp => ?_⟩
    simp only [destructorDrain, List.mem_map] at hp
    obtain ⟨p0, _, rfl⟩ := hp
    cases p0.2 with
    | single hh => simp [Handler.cancel, Handler.getStatus]
    | pipe hh => simp [Handler.cancel, Handler.getStatus]

/-- Witness for C4 at concrete inputs: a run that enqueues a waiting
handler, delivers nothing, and exits on a failed consume; the drained
handler ends cancelled. -/
theorem run_termination_and_destructor_witness :
    readerRun initLoopState [.enqueue (.single SingleQueryResultHandler.fresh)]
      .consumeInputFailed =
      some (.pqconsumeinputFailed,
        { queue := [(0, .single SingleQueryResultHandler.fresh)], nextId := 1, popped := [] })
  ∧ (∀ p ∈ destructorDrain
        [((0 : Nat), Handler.single SingleQueryResultHandler.fresh)],
      p.2.getStatus = .cancelled) :=
  ⟨by decide,
    (run_termination_and_destructor initLoopState
      [.enqueue (.single SingleQueryResultHandler.fresh)] .consumeInputFailed
      .pqconsumeinputFailed
      { queue := [(0, .single SingleQueryResultHandler.fresh)], nextId := 1, popped := [] }
      (by simp [initLoopState]) (by simp [initLoopState])
      (by intro hh hmem; simp at hmem; subst hmem; decide)
      (by decide)).2.2.2⟩

/-- C5: the single-query handler stores the first result passed to
handle and transitions to completed on that call; the await
continuation of async_query then returns that stored result with no
error. -/
theorem single_query_stores_first_result (r : Result) :
    (SingleQueryResultHandler.fresh.handle r).status = .completed
  ∧ (SingleQueryResultHandler.fresh.handle r).stored = some r
  ∧ queryAwaitCont (SingleQueryResultHandler.fresh.handle r) =
      (SingleQueryResultHandler.fresh.handle r, .ok, some r) := by
  refine ⟨rfl, rfl, ?_⟩
  simp [queryAwaitCont, SingleQueryResultHandler.handle, SingleQueryResultHandler.fresh]

/-- C6: a pipeline handler over n pushed queries writes the k-th
arriving result into the k-th slot of the range (the written slots
are exactly the arrival sequence, in order) and transitions to
completed exactly when the iterator reaches the end of the range. -/
theorem pipeline_delivers_in_push_order (n : Nat) (rs : List Result)
    (hn : 1 ≤ n) (hlen : rs.length ≤ n) :
    feedPipeline (PipelineResultHandler.fresh n) rs =
      some { status := if rs.length = n then .completed else .waiting,
             written := rs, remaining := n - rs.length, nDummy := 0 } := by
  simpa [PipelineResultHandler.fresh] using
    feedPipeline_run rs (PipelineResultHandler.fresh n) rfl rfl hn hlen

/-- Witness for C6 at a concrete two-query pipeline: both hypotheses
hold at n = 2 and the two results land in slots 0 and 1 with the
handler completed. -/
theorem pipeline_delivers_in_push_order_witness :
    1 ≤ 2 ∧ [resA, resB].length ≤ 2 ∧
    feedPipeline (PipelineResultHandler.fresh 2) [resA, resB] =
      some { status := if [resA, resB].length = 2 then .completed else .waiting,
             written := [resA, resB], remaining := 2 - [resA, resB].length, nDummy := 0 } :=
  ⟨by decide, by decide, pipeline_delivers_in_push_order 2 [resA, resB] (by decide) (by decide)⟩

/-- C10: the pipeline handle write is unguarded, so it is undefined
exactly when the handler is not in dummy mode and the iterator is
already at the end of the range; async_exec_pipeline over an empty
range enqueues exactly such a handler (waiting, zero remaining), and
dispatching any non-sync result to it at the front of the queue hits
the past-the-end write. -/
theorem pipeline_handle_unguarded_write (h : PipelineResultHandler) (r rq : Result)
    (i : Nat) (t : List (Nat × Handler)) :
    (h.nDummy = 0 → h.remaining = 0 → h.handle r = none)
  ∧ (h.handle r = none ↔ h.nDummy = 0 ∧ h.remaining = 0)
  ∧ (PipelineResultHandler.fresh 0).status = .waiting
  ∧ (PipelineResultHandler.fresh 0).remaining = 0
  ∧ (rq.status ≠ .pipelineSync →
      dispatchResult ((i, Handler.pipe (PipelineResultHandler.fresh 0)) :: t) rq = none) := by
  refine ⟨?_, ?_, rfl, rfl, ?_⟩
  · intro hd hr
    simp [PipelineResultHandler.handle, hd, hr]
  · constructor
    · intro hnone
      by_cases hd : h.nDummy = 0
      · by_cases hr : h.remaining = 0
        · exact ⟨hd, hr⟩
        · simp [PipelineResultHandler.handle, hd, hr] at hnone
      · simp [PipelineResultHandler.handle, hd] at hnone
    · intro ⟨hd, hr⟩
      simp [PipelineResultHandler.handle, hd, hr]
  · intro hrq
    simp [dispatchResult, hrq, Handler.handle, PipelineResultHandler.handle,
      PipelineResultHandler.fresh]

/-- Witness for C10 at concrete inputs: a fresh empty-range handler
at the front of a queue, receiving a rows result. -/
theorem pipeline_handle_unguarded_write_witness :
    (PipelineResultHandler.fresh 0).nDummy = 0
  ∧ (PipelineResultHandler.fresh 0).remaining = 0
  ∧ resA.status ≠ .pipelineSync
  ∧ (PipelineResultHandler.fresh 0).handle resA = none
  ∧ dispatchResult [(0, Handler.pipe (PipelineResultHandler.fresh 0))] resA = none :=
  ⟨by decide, by decide, by decide,
    (pipeline_handle_unguarded_write (PipelineResultHandler.fresh 0) resA resA 0 []).1
      (by decide) (by decide),
    (pipeline_handle_unguarded_write (PipelineResultHandler.fresh 0) resA resA 0 []).2.2.2.2
      (by decide)⟩

/-- C3 counterexample: in async_query the continuation after a
cancelled wait leaves the still-waiting single-query handler
completely unchanged and fails with operation_aborted; no dumify
exists on that handler and it is not in dummy mode afterwards: its
next handle call still stores the incoming result instead of
discarding it. -/
theorem single_query_cancel_no_dumify :
    (queryAwaitCont SingleQueryResultHandler.fresh).1 = SingleQueryResultHandler.fresh
  ∧ (queryAwaitCont SingleQueryResultHandler.fresh).2.1 = .operationAborted
  ∧ ((queryAwaitCont SingleQueryResultHandler.fresh).1.handle resA).stored = some resA
  ∧ ¬ (queryAwaitCont SingleQueryResultHandler.fresh).1.discardsResults := by
  refine ⟨by decide, by decide, by decide, ?_⟩
  intro hdisc
  have := hdisc resA
  simp [queryAwaitCont, SingleQueryResultHandler.fresh, SingleQueryResultHandler.handle] at this

/-- C3 amended: a wait-cancelled exec_pipeline leaves its handler in
the FIFO (the in-place update keeps the queue length and every other
position) switched to dummy mode with the count of still-outstanding
results, and completes with operation_aborted; a wait-cancelled
single-query exec also completes with operation_aborted but performs
no dummy conversion: the unchanged handler absorbs the next result
through its ordinary handle, which stores it and completes. -/
theorem cancel_while_waiting_behaviour (h : PipelineResultHandler)
    (hs : SingleQueryResultHandler) (r : Result) (q : List Handler) (k : Nat)
    (hw : h.status = .waiting) (hsw : hs.status = .waiting) :
    pipelineAwaitCont h = (h.dumify, .operationAborted)
  ∧ h.dumify.nDummy = h.remaining
  ∧ (q.set k (Handler.pipe h.dumify)).length = q.length
  ∧ (∀ j, j ≠ k → (q.set k (Handler.pipe h.dumify))[j]? = q[j]?)
  ∧ queryAwaitCont hs = (hs, .operationAborted, none)
  ∧ (hs.handle r).status = .completed := by
  refine ⟨?_, rfl, by simp, ?_, ?_, rfl⟩
  · simp [pipelineAwaitCont, hw]
  · intro j hj
    exact List.getElem?_set_ne (Ne.symm hj)
  · simp [queryAwaitCont, hsw]

/-- Witness for C3 at concrete inputs: a waiting three-slot pipeline
handler with one result already written, and a fresh waiting
single-query handler. -/
theorem cancel_while_waiting_behaviour_witness :
    ({ status := .waiting, written := [resA], remaining := 2, nDummy := 0 } :
      PipelineResultHandler).status = .waiting
  ∧ SingleQueryResultHandler.fresh.status = .waiting
  ∧ pipelineAwaitCont { status := .waiting, written := [resA], remaining := 2, nDummy := 0 } =
      (({ status := .waiting, written := [resA], remaining := 2, nDummy := 0 } :
        PipelineResultHandler).dumify, .operationAborted)
  ∧ queryAwaitCont SingleQueryResultHandler.fresh =
      (SingleQueryResultHandler.fresh, .operationAborted, none) :=
  ⟨by decide, by decide,
    (cancel_while_waiting_behaviour
      { status := .waiting, written := [resA], remaining := 2, nDummy := 0 }
      SingleQueryResultHandler.fresh resB [] 0 (by decide) (by decide)).1,
    (cancel_while_waiting_behaviour
      { status := .waiting, written := [resA], remaining := 2, nDummy := 0 }
      SingleQueryResultHandler.fresh resB [] 0 (by decide) (by decide)).2.2.2.2.1⟩

/-- C7: evaluation of the run-loop combination at the failing
scenario. The reader half terminates first with
pqconsumeinput_failed, the cancelled writer completes with
operation_aborted, and async_run returns operation_aborted, dropping
the reader error (a writer-first termination, by contrast, does
surface the writer error). -/
theorem run_result_drops_reader_error :
    asyncRunResult .reader .pqconsumeinputFailed = .operationAborted
  ∧ Ec.operationAborted ≠ Ec.pqconsumeinputFailed
  ∧ asyncRunResult .reader (.otherIo 3) = .operationAborted
  ∧ asyncRunResult .writer (.otherIo 3) = .otherIo 3 := by
  decide

/-- C2: a pipeline-sync result is consumed by the reader: the
dispatch leaves the queue unchanged, invokes handle on no handler,
and pops no handler. -/
theorem sync_marker_consumed (q : List (Nat × Handler)) (r : Result)
    (hr : r.status = .pipelineSync) :
    dispatchResult q r = some { queue := q, handled := none, popped := [] } := by
  simp [dispatchResult, hr]

/-- Witness for C2: a sync marker arriving while a single-query
handler is at the front of the queue. -/
theorem sync_marker_consumed_witness :
    (Result.mk .pipelineSync 7).status = .pipelineSync
  ∧ dispatchResult [(0, Handler.single SingleQueryResultHandler.fresh)]
      (Result.mk .pipelineSync 7) =
      some { queue := [(0, Handler.single SingleQueryResultHandler.fresh)],
             handled := none, popped := [] } :=
  ⟨rfl, sync_marker_consumed [(0, Handler.single SingleQueryResultHandler.fresh)]
    (Result.mk .pipelineSync 7) rfl⟩

end AsiofiedPq

namespace Psql

/-- Folding add over an argument pack: the types, lengths, and buffer
grow by the per-value OIDs, sizes, and serializations in order, while
the values and formats arrays are untouched (they are produced by
convert_offsets afterwards). -/
theorem foldl_add_spec (vs : List PValue) : ∀ p : Params,
    (vs.foldl Params.add p).types = p.types ++ vs.map oidOfV
  ∧ (vs.foldl Params.add p).lengths = p.lengths ++ vs.map (fun v => (sizeOfV v : Int))
  ∧ (vs.foldl Params.add p).buffer = p.buffer ++ (vs.map serializeV).flatten
  ∧ (vs.foldl Params.add p).values = p.values
  ∧ (vs.foldl Params.add p).formats = p.formats := by
  induction vs with
  | nil =>
    intro p
    simp
  | cons v vs ih =>
    intro p
    obtain ⟨h1, h2, h3, h4, h5⟩ := ih (p.add v)
    simp only [List.foldl_cons, List.map_cons, List.flatten_cons]
    rw [h1, h2, h3, h4, h5]
    simp [Params.add, List.append_assoc]

/-- convert_offsets pushes format code 1 once per length entry. -/
theorem convertOffsetsAux_formats : ∀ (lens : List Int) (off : Nat),
    (convertOffsetsAux off lens).2 = List.replicate lens.length 1 := by
  intro lens
  induction lens with
  | nil =>
    intro off
    simp [convertOffsetsAux]
  | cons l ls ih =>
    intro off
    simp [convertOffsetsAux, ih, List.replicate_succ]

/-- convert_offsets produces a null value pointer exactly at the
positions whose length entry is zero. -/
theorem convertOffsetsAux_values_none : ∀ (lens : List Int) (off i : Nat),
    ((convertOffsetsAux off lens).1[i]? = some none ↔ lens[i]? = some 0) := by
  intro lens
  induction lens with
  | nil =>
    intro off i
    simp [convertOffsetsAux]
  | cons l ls ih =>
    intro off i
    cases i with
    | zero =>
      by_cases hl : l = 0
      · simp [convertOffsetsAux, hl]
      · simp [convertOffsetsAux, hl]
    | succ j =>
      simp [convertOffsetsAux, ih]

/-- C8 counterexample: a parameter pack holding one zero-length text
value yields length 0, zero payload bytes, and format 1 as the claim
says, but its values entry is a null pointer, so the parameter is not
transmitted as a present empty value (libpq reads a null paramValues
entry as SQL NULL). -/
theorem empty_text_gets_null_pointer :
    (makeParams [.ptext []]).lengths = [0]
  ∧ (makeParams [.ptext []]).buffer = []
  ∧ (makeParams [.ptext []]).formats = [1]
  ∧ (makeParams [.ptext []]).values = [none]
  ∧ ¬ presentAt (makeParams [.ptext []]) 0 := by
  refine ⟨by decide, by decide, by decide, by decide, ?_⟩
  rintro ⟨off, hoff⟩
  have hval : (makeParams [PValue.ptext []]).values = [none] := by decide
  rw [hval] at hoff
  simp at hoff

/-- C8 amended: every parameter of a pack is submitted with format
code 1; the lengths array records the serialized size of each value
in order, the buffer is the concatenation of the serializations (a
zero-length text contributes length 0 and no bytes), and the values
array holds a null pointer exactly at the zero-length positions, so a
zero-length text is transmitted as SQL NULL rather than as a present
empty value. -/
theorem params_binary_format_null_on_zero (vs : List PValue) :
    (makeParams vs).formats = List.replicate vs.length 1
  ∧ (makeParams vs).lengths = vs.map (fun v => (sizeOfV v : Int))
  ∧ (makeParams vs).buffer = (vs.map serializeV).flatten
  ∧ (makeParams vs).types = vs.map oidOfV
  ∧ (∀ i : Nat, (makeParams vs).values[i]? = some none ↔
      (makeParams vs).lengths[i]? = some 0)
  ∧ sizeOfV (.ptext []) = 0
  ∧ serializeV (.ptext []) = [] := by
  obtain ⟨h1, h2, h3, h4, h5⟩ := foldl_add_spec vs Params.empty
  have hempty1 : Params.empty.types = [] := rfl
  have hempty2 : Params.empty.lengths = [] := rfl
  have hempty3 : Params.empty.buffer = [] := rfl
  refine ⟨?_, ?_, ?_, ?_, ?_, rfl, rfl⟩
  · simp [makeParams, Params.convertOffsets, convertOffsetsAux_formats, h2, hempty2]
  · simp [makeParams, Params.convertOffsets, h2, hempty2]
  · simp [makeParams, Params.convertOffsets, h3, hempty3]
  · simp [makeParams, Params.convertOffsets, h1, hempty1]
  · intro i
    simp [makeParams, Params.convertOffsets, convertOffsetsAux_values_none]

/-- Witness for C8 amended at a concrete pack of an empty text and an
int4: both formats are 1 and position 0 is a null pointer with length
0. -/
theorem params_binary_format_null_on_zero_witness :
    (makeParams [.ptext [], .pint32 7]).formats = List.replicate 2 1
  ∧ ((makeParams [.ptext [], .pint32 7]).values[0]? = some none ↔
      (makeParams [.ptext [], .pint32 7]).lengths[0]? = some 0) :=
  ⟨by simpa using (params_binary_format_null_on_zero [.ptext [], .pint32 7]).1,
    (params_binary_format_null_on_zero [.ptext [], .pint32 7]).2.2.2.2.1 0⟩

mutual

/-- The extraction equals the reachable names filtered by
non-membership in the map, type by type. -/
theorem extract_filter (omp : List String) : (t : PgType) →
    extractNewUdts omp t = (reachableUdts t).filter (fun n => decide (¬ n ∈ omp))
  | .builtin => rfl
  | .udt n fs => by
    rw [extractNewUdts, reachableUdts, List.filter_cons, extract_filter_list omp fs]
    by_cases hmem : n ∈ omp
    · simp [hmem]
    · simp [hmem]
  | .tup fs => by
    rw [extractNewUdts, reachableUdts, extract_filter_list omp fs]
  | .arr e => by
    rw [extractNewUdts, reachableUdts, extract_filter omp e]

/-- The extraction equals the filtered reachable names, field pack by
field pack. -/
theorem extract_filter_list (omp : List String) : (ts : PgTypeList) →
    extractNewUdtsList omp ts =
      (reachableUdtsList ts).filter (fun n => decide (¬ n ∈ omp))
  | .nil => rfl
  | .cons f fs => by
    rw [extractNewUdtsList, reachableUdtsList, List.filter_append,
      extract_filter omp f, extract_filter_list omp fs]

end

/-- C9 counterexample: a tuple holding the same unregistered
user-defined type twice makes extract_new_udts emit that type twice,
so the output is not a set with each type appearing once. -/
theorem extract_new_udts_duplicates :
    extractNewUdts []
      (.tup (.cons (.udt "p" .nil) (.cons (.udt "p" .nil) .nil))) = ["p", "p"]
  ∧ ¬ (extractNewUdts []
      (.tup (.cons (.udt "p" .nil) (.cons (.udt "p" .nil) .nil)))).Nodup := by
  constructor
  · rfl
  · decide

/-- C9 amended: extract_new_udts walks the type structurally and
emits, in traversal order, one entry per occurrence of a user-defined
type that is not registered in the map (so its entries may repeat
when a type is reachable more than once); as a set it is exactly the
reachable user-defined types minus the registered ones, and no
registered or built-in type ever appears. -/
theorem extract_new_udts_filter_reachable (omp : List String) (t : PgType) :
    extractNewUdts omp t = (reachableUdts t).filter (fun n => decide (¬ n ∈ omp))
  ∧ (∀ n, n ∈ extractNewUdts omp t ↔ (n ∈ reachableUdts t ∧ n ∉ omp)) := by
  refine ⟨extract_filter omp t, fun n => ?_⟩
  rw [extract_filter omp t]
  simp [List.mem_filter]

end Psql
